import Mathlib

set_option maxHeartbeats 1000000

/- Verification of the media resolution and retrieval pipeline of the
repository (src/youtube.py): JSON-like values, the recursive dictionary
scanner, the search-response parsing, the URL identifier extractor, the
download orchestration effects, the duration probe and the transcript
fetcher. -/

/-- JSON-like values as produced by response.json() in the source. JSON null
and booleans do not occur in the envelopes the claims quantify over and are
not modelled; the absent result of the scanner is Option.none. Numbers are
modelled as integers (durations in probe metadata are strings). Mapping
entries keep insertion order, as Python dicts do. -/
inductive JVal where
  | str : String → JVal
  | num : Int → JVal
  | obj : List (String × JVal) → JVal
  | arr : List JVal → JVal

mutual

/-- Embeds __search_dictionary (src/youtube.py, lines 259-266): if the key is
present in the mapping, return its value; otherwise iterate over the mapping
values in order, descending only into nested mappings, and return the first
non-absent result. Python None (the fall-through return) is Option.none. -/
def searchDictionary (d : List (String × JVal)) (key : String) : Option JVal :=
  match List.lookup key d with
  | some v => some v
  | none => searchEntries d key

/-- The loop `for value in dictionary.values()` of __search_dictionary:
only values that are mappings are descended into, and a None result from a
nested call lets the loop continue. -/
def searchEntries (d : List (String × JVal)) (key : String) : Option JVal :=
  match d with
  | [] => none
  | (_, JVal.obj d') :: rest =>
    match searchDictionary d' key with
    | some v => some v
    | none => searchEntries rest key
  | _ :: rest => searchEntries rest key

end

mutual

/-- The pre-order listing of mapping entries described by the specification:
the entries of a mapping are listed before the traversal descends into nested
mappings found within its values, in entry order. Written from the spec's
words for comparison with searchDictionary. -/
def preorderEntries (d : List (String × JVal)) : List (String × JVal) :=
  d ++ preorderSub d

/-- The entries contributed by the nested mappings among the values of a
mapping, in value order. -/
def preorderSub (d : List (String × JVal)) : List (String × JVal) :=
  match d with
  | [] => []
  | (_, JVal.obj d') :: rest => preorderEntries d' ++ preorderSub rest
  | _ :: rest => preorderSub rest

end

theorem lookup_eq_find_map (d : List (String × JVal)) (key : String) :
    List.lookup key d = (d.find? (fun e => e.1 == key)).map Prod.snd := by
  induction d with
  | nil => rfl
  | cons e rest ih =>
    obtain ⟨k, v⟩ := e
    by_cases h : key = k
    · subst h
      simp [List.lookup, List.find?]
    · have h1 : (key == k) = false := by simp [h]
      have h2 : (k == key) = false := by simp [Ne.symm h]
      simp only [List.lookup, List.find?, h1, h2]
      exact ih

theorem scanner_eq_aux : ∀ n : Nat, ∀ d : List (String × JVal), sizeOf d ≤ n → ∀ key : String,
    (searchDictionary d key
        = ((preorderEntries d).find? (fun e => e.1 == key)).map Prod.snd)
    ∧ (searchEntries d key
        = ((preorderSub d).find? (fun e => e.1 == key)).map Prod.snd) := by
  intro n
  induction n with
  | zero =>
    intro d hd key
    exfalso
    cases d with
    | nil => simp at hd
    | cons e rest => simp at hd
  | succ n ih =>
    intro d hd key
    have hsub : searchEntries d key
        = ((preorderSub d).find? (fun e => e.1 == key)).map Prod.snd := by
      match d, hd with
      | [], _ => simp [searchEntries, preorderSub]
      | (k, v) :: rest, hd =>
        have hrest : sizeOf rest ≤ n := by
          simp at hd; omega
        match v with
        | JVal.obj d' =>
          have hd' : sizeOf d' ≤ n := by
            simp at hd; omega
          have ih1 := (ih d' hd' key).1
          have ih2 := (ih rest hrest key).2
          rw [searchEntries]
          rw [show preorderSub ((k, JVal.obj d') :: rest)
              = preorderEntries d' ++ preorderSub rest from by rw [preorderSub]]
          rw [List.find?_append]
          cases hcase : searchDictionary d' key with
          | some w =>
            rw [ih1] at hcase
            cases hfind : (preorderEntries d').find? (fun e => e.1 == key) with
            | none => rw [hfind] at hcase; simp at hcase
            | some p =>
              rw [hfind] at hcase
              simp at hcase
              simp [hfind, hcase]
          | none =>
            rw [ih1] at hcase
            cases hfind : (preorderEntries d').find? (fun e => e.1 == key) with
            | none => simp [hfind, ih2]
            | some p => rw [hfind] at hcase; simp at hcase
        | JVal.str s =>
          have e1 : searchEntries ((k, JVal.str s) :: rest) key = searchEntries rest key := by
            simp [searchEntries]
          have e2 : preorderSub ((k, JVal.str s) :: rest) = preorderSub rest := by
            simp [preorderSub]
          rw [e1, e2]
          exact (ih rest hrest key).2
        | JVal.num m =>
          have e1 : searchEntries ((k, JVal.num m) :: rest) key = searchEntries rest key := by
            simp [searchEntries]
          have e2 : preorderSub ((k, JVal.num m) :: rest) = preorderSub rest := by
            simp [preorderSub]
          rw [e1, e2]
          exact (ih rest hrest key).2
        | JVal.arr l =>
          have e1 : searchEntries ((k, JVal.arr l) :: rest) key = searchEntries rest key := by
            simp [searchEntries]
          have e2 : preorderSub ((k, JVal.arr l) :: rest) = preorderSub rest := by
            simp [preorderSub]
          rw [e1, e2]
          exact (ih rest hrest key).2
    refine ⟨?_, hsub⟩
    rw [searchDictionary, lookup_eq_find_map]
    rw [show preorderEntries d = d ++ preorderSub d from by rw [preorderEntries]]
    rw [List.find?_append]
    cases hfind : d.find? (fun e => e.1 == key) with
    | none => simp [hfind, hsub]
    | some p => simp [hfind]

/-- C1: the Structural Search Scanner (__search_dictionary) returns the value
of the first mapping entry whose key equals the target name under pre-order
precedence, where the entries of a mapping are visited before the traversal
descends into nested mappings found within its values; if the key occurs
nowhere in the traversed structure, the result is absent (None), not an
error. -/
theorem scanner_preorder_first (d : List (String × JVal)) (key : String) :
    (searchDictionary d key
        = ((preorderEntries d).find? (fun e => e.1 == key)).map Prod.snd)
    ∧ ((∀ e ∈ preorderEntries d, e.1 ≠ key) → searchDictionary d key = none) := by
  have h := (scanner_eq_aux (sizeOf d) d (Nat.le_refl _) key).1
  refine ⟨h, fun habs => ?_⟩
  rw [h]
  cases hfind : (preorderEntries d).find? (fun e => e.1 == key) with
  | none => simp
  | some p =>
    have hp := List.find?_some hfind
    have hmem := List.mem_of_find?_eq_some hfind
    simp at hp
    exact absurd hp (habs p hmem)

/-- Witness for C1's hypothesis-bearing conjunct: a concrete structure in
which the key occurs nowhere yields an absent result. -/
theorem scanner_preorder_first_witness :
    searchDictionary [("a", JVal.obj [("b", JVal.num 1)])] "c" = none :=
  (scanner_preorder_first [("a", JVal.obj [("b", JVal.num 1)])] "c").2 (by
    intro e he
    simp [preorderEntries, preorderSub] at he
    rcases he with he | he <;> simp [he])

/-- Python exceptions raised by the modelled code paths: AttributeError,
TypeError, IndexError, KeyError and ValueError. -/
inductive PyErr where
  | attrErr
  | typeErr
  | indexErr
  | keyErr
  | valueErr
deriving DecidableEq

/-- Python `x.get(key)` applied to the result of a previous step: a mapping
yields the entry value or None; calling .get on None or on a non-mapping
(list, string, number) raises AttributeError. -/
def mget (v : Except PyErr (Option JVal)) (key : String) : Except PyErr (Option JVal) :=
  match v with
  | Except.error e => Except.error e
  | Except.ok none => Except.error PyErr.attrErr
  | Except.ok (some (JVal.obj d)) => Except.ok (List.lookup key d)
  | Except.ok (some _) => Except.error PyErr.attrErr

/-- Python `x[0]`: on None a TypeError, on an empty list an IndexError, on a
non-empty list its head, on a mapping a KeyError (JSON keys are strings, so the
integer 0 is never present), on a string its first character (IndexError when
empty), on a number a TypeError. -/
def index0 (v : Except PyErr (Option JVal)) : Except PyErr (Option JVal) :=
  match v with
  | Except.error e => Except.error e
  | Except.ok none => Except.error PyErr.typeErr
  | Except.ok (some (JVal.arr [])) => Except.error PyErr.indexErr
  | Except.ok (some (JVal.arr (x :: _))) => Except.ok (some x)
  | Except.ok (some (JVal.obj _)) => Except.error PyErr.keyErr
  | Except.ok (some (JVal.str s)) =>
    match s.toList with
    | [] => Except.error PyErr.indexErr
    | c :: _ => Except.ok (some (JVal.str (String.singleton c)))
  | Except.ok (some (JVal.num _)) => Except.error PyErr.typeErr

/-- The nested envelope access of search_youtube (src/youtube.py lines 268-275):
response.json().get("contents").get("twoColumnSearchResultsRenderer")
.get("primaryContents").get("sectionListRenderer").get("contents")[0]
.get("itemSectionRenderer").get("contents"). -/
def searchResults (body : JVal) : Except PyErr (Option JVal) :=
  let s1 := mget (Except.ok (some body)) ("contents")
  let s2 := mget s1 ("twoColumnSearchResultsRenderer")
  let s3 := mget s2 ("primaryContents")
  let s4 := mget s3 ("sectionListRenderer")
  let s5 := mget s4 ("contents")
  let s6 := index0 s5
  let s7 := mget s6 ("itemSectionRenderer")
  mget s7 ("contents")

/-- Python `for result in search_results`: iterating None raises TypeError, a
list yields its elements, a mapping yields its keys (as strings), a string
yields its characters, a number raises TypeError. -/
def iterResults (v : Option JVal) : Except PyErr (List JVal) :=
  match v with
  | none => Except.error PyErr.typeErr
  | some (JVal.arr l) => Except.ok l
  | some (JVal.obj d) => Except.ok (d.map (fun e => JVal.str e.1))
  | some (JVal.str s) => Except.ok (s.toList.map (fun c => JVal.str (String.singleton c)))
  | some (JVal.num _) => Except.error PyErr.typeErr

/-- The loop body `video_ids.append(__search_dictionary(dictionary=result,
key="videoId"))` over the iterated items. A mapping item is scanned; a list or
string item raises AttributeError inside __search_dictionary (they have no
.values/.get attribute), a number raises TypeError (`in` on a number). -/
def scanItems (items : List JVal) : Except PyErr (List (Option JVal)) :=
  match items with
  | [] => Except.ok []
  | JVal.obj d :: rest =>
    (scanItems rest).map (fun tail => searchDictionary d ("videoId") :: tail)
  | JVal.num _ :: _ => Except.error PyErr.typeErr
  | _ :: _ => Except.error PyErr.attrErr

/-- The single-quote character, used by Python repr of strings. -/
def squote : String := String.singleton (Char.ofNat 39)

mutual

/-- Python repr() of a JSON value (used by str() on containers): strings in
single quotes (escaping is not modelled), numbers in decimal, containers
recursively. -/
def pyRepr (v : JVal) : String :=
  match v with
  | JVal.str s => squote ++ s ++ squote
  | JVal.num n => toString n
  | JVal.obj d => "\x7b" ++ pyReprEntries d ++ "\x7d"
  | JVal.arr l => "[" ++ pyReprList l ++ "]"

/-- Comma-separated `'key': value` renderings of mapping entries. -/
def pyReprEntries (d : List (String × JVal)) : String :=
  match d with
  | [] => ""
  | [(k, v)] => squote ++ k ++ squote ++ ": " ++ pyRepr v
  | (k, v) :: e :: rest =>
    squote ++ k ++ squote ++ ": " ++ pyRepr v ++ ", " ++ pyReprEntries (e :: rest)

/-- Comma-separated renderings of list elements. -/
def pyReprList (l : List JVal) : String :=
  match l with
  | [] => ""
  | [v] => pyRepr v
  | v :: w :: rest => pyRepr v ++ ", " ++ pyReprList (w :: rest)

end

/-- Python str() as used by the f-string f"https://youtu.be/{video_id}": a
string passes through, everything else renders like repr. -/
def pyStr (v : JVal) : String :=
  match v with
  | JVal.str s => s
  | JVal.num n => toString n
  | JVal.obj d => "\x7b" ++ pyReprEntries d ++ "\x7d"
  | JVal.arr l => "[" ++ pyReprList l ++ "]"

/-- The final list comprehension of search_youtube:
[f"https://youtu.be/{video_id}" for video_id in video_ids if video_id is not None]. -/
def buildUrls (ids : List (Option JVal)) : List String :=
  ids.filterMap (fun o => o.map (fun v => "https://youtu.be/" ++ pyStr v))

/-- Outcome of the POST to the internal search endpoint followed by
raise_for_status: either a decoded JSON body, or one of the three caught
transport failures (ConnectionError, HTTPError, Timeout). -/
inductive NetOutcome where
  | ok (body : JVal)
  | connErr
  | httpErr
  | timeoutErr

/-- Embeds search_youtube (src/youtube.py lines 210-280) from the transport
outcome onward: the three transport failures are caught, the error printed,
and the function falls through returning Python None (Option.none); on a
successful response the body is parsed and the canonical URL list returned.
A raised PyErr propagates to the caller. -/
def search_youtube (net : NetOutcome) : Except PyErr (Option (List String)) :=
  match net with
  | NetOutcome.ok body =>
    match searchResults body with
    | Except.error e => Except.error e
    | Except.ok res =>
      match iterResults res with
      | Except.error e => Except.error e
      | Except.ok items =>
        match scanItems items with
        | Except.error e => Except.error e
        | Except.ok ids => Except.ok (some (buildUrls ids))
  | NetOutcome.connErr => Except.ok none
  | NetOutcome.httpErr => Except.ok none
  | NetOutcome.timeoutErr => Except.ok none

/-- A well-formed response envelope holding the given item list, as descended
into by search_youtube. -/
def mkEnvelope (items : List JVal) : JVal :=
  JVal.obj [("contents", JVal.obj [("twoColumnSearchResultsRenderer",
    JVal.obj [("primaryContents", JVal.obj [("sectionListRenderer",
    JVal.obj [("contents", JVal.arr [JVal.obj [("itemSectionRenderer",
    JVal.obj [("contents", JVal.arr items)])]])])])])])]

theorem scanItems_objs (pairs : List ((List (String × JVal)) × Option String)) :
    scanItems (pairs.map (fun p => JVal.obj p.1))
      = Except.ok (pairs.map (fun p => searchDictionary p.1 ("videoId"))) := by
  induction pairs with
  | nil => rfl
  | cons p rest ih => simp [scanItems, ih, Except.map]

theorem searchResults_mkEnvelope (items : List JVal) :
    searchResults (mkEnvelope items) = Except.ok (some (JVal.arr items)) := by
  simp [searchResults, mkEnvelope, mget, index0, List.lookup]

theorem buildUrls_eq (pairs : List ((List (String × JVal)) × Option String))
    (h : ∀ p ∈ pairs, searchDictionary p.1 ("videoId") = p.2.map JVal.str) :
    buildUrls (pairs.map (fun p => searchDictionary p.1 ("videoId")))
      = pairs.filterMap (fun p => p.2.map (fun s => "https://youtu.be/" ++ s)) := by
  induction pairs with
  | nil => rfl
  | cons p rest ih =>
    have hp := h p (List.mem_cons_self p rest)
    have ihr := ih (fun q hq => h q (List.mem_cons_of_mem p hq))
    simp only [buildUrls] at ihr ⊢
    cases hps : p.2 with
    | none =>
      rw [hps] at hp
      simp only [Option.map_none'] at hp
      simp only [List.map_cons, List.filterMap_cons, hp, hps, Option.map_none']
      exact ihr
    | some s =>
      rw [hps] at hp
      simp only [Option.map_some'] at hp
      simp only [List.map_cons, List.filterMap_cons, hp, hps, Option.map_some']
      rw [show pyStr (JVal.str s) = s from rfl, ihr]

/-- C3: for a successful unauthenticated-search response whose envelope holds a
list of item mappings, search_youtube returns the canonical URLs of the
identifiers the scanner finds, in item order; items in which the scanner finds
no identifier contribute nothing, and when each of the N items holds one
(11-character) identifier the result is exactly N URLs, in the same order,
each of the form https://youtu.be/<id>. -/
theorem search_youtube_success :
    (∀ pairs : List ((List (String × JVal)) × Option String),
      (∀ p ∈ pairs, searchDictionary p.1 ("videoId") = p.2.map JVal.str) →
      search_youtube (NetOutcome.ok (mkEnvelope (pairs.map (fun p => JVal.obj p.1))))
        = Except.ok (some (pairs.filterMap
            (fun p => p.2.map (fun s => "https://youtu.be/" ++ s)))))
    ∧ (∀ pairs : List ((List (String × JVal)) × String),
      (∀ p ∈ pairs, p.2.length = 11 ∧ searchDictionary p.1 ("videoId") = some (JVal.str p.2)) →
      search_youtube (NetOutcome.ok (mkEnvelope (pairs.map (fun p => JVal.obj p.1))))
        = Except.ok (some (pairs.map (fun p => "https://youtu.be/" ++ p.2)))) := by
  have main : ∀ pairs : List ((List (String × JVal)) × Option String),
      (∀ p ∈ pairs, searchDictionary p.1 ("videoId") = p.2.map JVal.str) →
      search_youtube (NetOutcome.ok (mkEnvelope (pairs.map (fun p => JVal.obj p.1))))
        = Except.ok (some (pairs.filterMap
            (fun p => p.2.map (fun s => "https://youtu.be/" ++ s)))) := by
    intro pairs h
    simp only [search_youtube, searchResults_mkEnvelope, iterResults, scanItems_objs]
    rw [buildUrls_eq pairs h]
  refine ⟨main, fun pairs h => ?_⟩
  have h2 : ∀ p ∈ pairs.map (fun q => (q.1, some q.2)),
      searchDictionary p.1 ("videoId") = p.2.map JVal.str := by
    intro p hp
    rw [List.mem_map] at hp
    obtain ⟨q, hq, hpq⟩ := hp
    subst hpq
    simpa using (h q hq).2
  have hmain := main (pairs.map (fun q => (q.1, some q.2))) h2
  have e1 : (pairs.map (fun q => ((q.1 : List (String × JVal)), some q.2))).map
      (fun p => JVal.obj p.1) = pairs.map (fun p => JVal.obj p.1) := by
    clear hmain h2 h main
    induction pairs with
    | nil => rfl
    | cons p rest ih => simp only [List.map_cons, ih]
  have e2 : (pairs.map (fun q => ((q.1 : List (String × JVal)), some q.2))).filterMap
      (fun p => p.2.map (fun s => "https://youtu.be/" ++ s))
      = pairs.map (fun p => "https://youtu.be/" ++ p.2) := by
    clear hmain h2 h main e1
    induction pairs with
    | nil => rfl
    | cons p rest ih =>
      simp only [List.map_cons, List.filterMap_cons, Option.map_some', ih]
  rw [e1, e2] at hmain
  exact hmain

/-- Witness for C3: a mocked envelope with three item entries, each holding one
distinct 11-character videoId (at different nesting depths inside the items),
yields exactly three canonical URLs in item order. -/
theorem search_youtube_success_witness :
    search_youtube (NetOutcome.ok (mkEnvelope
      [JVal.obj [("videoId", JVal.str "aaaaaaaaaaa")],
       JVal.obj [("x", JVal.num 0), ("videoId", JVal.str "bbbbbbbbbbb")],
       JVal.obj [("nested", JVal.obj [("videoId", JVal.str "ccccccccccc")])]]))
      = Except.ok (some ["https://youtu.be/aaaaaaaaaaa", "https://youtu.be/bbbbbbbbbbb",
          "https://youtu.be/ccccccccccc"]) := by
  have h := search_youtube_success.2
    [([("videoId", JVal.str "aaaaaaaaaaa")], "aaaaaaaaaaa"),
     ([("x", JVal.num 0), ("videoId", JVal.str "bbbbbbbbbbb")], "bbbbbbbbbbb"),
     ([("nested", JVal.obj [("videoId", JVal.str "ccccccccccc")])], "ccccccccccc")]
    (by
      intro p hp
      simp only [List.mem_cons, List.not_mem_nil, or_false] at hp
      rcases hp with rfl | rfl | rfl <;>
        exact ⟨by decide, by simp [searchDictionary, searchEntries, List.lookup]⟩)
  simpa using h

/-- C4: each of the three caught transport failures of the unauthenticated
search path (connection error, HTTP error status, timeout) makes
search_youtube return Python None — an absent result, with no error
propagated to the caller. -/
theorem search_youtube_transport_soft :
    search_youtube NetOutcome.connErr = Except.ok none
    ∧ search_youtube NetOutcome.httpErr = Except.ok none
    ∧ search_youtube NetOutcome.timeoutErr = Except.ok none :=
  ⟨rfl, rfl, rfl⟩

/-- The envelope levels of search_youtube, each wrapping the given value one
level deeper, used to state what happens when a level is malformed. -/
def envL1 (x : JVal) : JVal := JVal.obj [("contents", x)]

/-- Envelope down to twoColumnSearchResultsRenderer. -/
def envL2 (x : JVal) : JVal := envL1 (JVal.obj [("twoColumnSearchResultsRenderer", x)])

/-- Envelope down to primaryContents. -/
def envL3 (x : JVal) : JVal := envL2 (JVal.obj [("primaryContents", x)])

/-- Envelope down to sectionListRenderer. -/
def envL4 (x : JVal) : JVal := envL3 (JVal.obj [("sectionListRenderer", x)])

/-- Envelope down to the section list (the value under the inner "contents"
key, expected to be a list of sections). -/
def envL5 (x : JVal) : JVal := envL4 (JVal.obj [("contents", x)])

/-- Envelope down to the first section's itemSectionRenderer. -/
def envL6 (x : JVal) : JVal := envL5 (JVal.arr [JVal.obj [("itemSectionRenderer", x)]])

/-- A successful response body in which everything is well-formed down to the
sectionListRenderer, which lacks its "contents" key. -/
def cex10 : JVal := envL4 (JVal.obj [])

/-- C10 counterexample: for a successful response whose section list renderer
lacks its "contents" key, search_youtube raises a TypeError (subscripting
None), which is neither an attribute error nor an index error — refuting the
claim that the propagated error is an attribute/index error for every listed
missing key. -/
theorem search_youtube_envelope_cex :
    search_youtube (NetOutcome.ok cex10) = Except.error PyErr.typeErr
    ∧ PyErr.typeErr ≠ PyErr.attrErr ∧ PyErr.typeErr ≠ PyErr.indexErr :=
  ⟨rfl, by decide, by decide⟩

/-- C10 (amended): for every successful unauthenticated-search response whose
JSON body lacks one of the expected envelope keys (or has an empty section
list), search_youtube raises a propagated hard error — an attribute, index,
or type error at the absent level — rather than returning an empty
collection; the fail-soft policy covers only transport-level failures. -/
theorem search_youtube_envelope_hard :
    (∀ d, List.lookup ("contents") d = none →
      search_youtube (NetOutcome.ok (JVal.obj d)) = Except.error PyErr.attrErr)
    ∧ (∀ d, List.lookup ("twoColumnSearchResultsRenderer") d = none →
      search_youtube (NetOutcome.ok (envL1 (JVal.obj d))) = Except.error PyErr.attrErr)
    ∧ (∀ d, List.lookup ("primaryContents") d = none →
      search_youtube (NetOutcome.ok (envL2 (JVal.obj d))) = Except.error PyErr.attrErr)
    ∧ (∀ d, List.lookup ("sectionListRenderer") d = none →
      search_youtube (NetOutcome.ok (envL3 (JVal.obj d))) = Except.error PyErr.attrErr)
    ∧ (∀ d, List.lookup ("contents") d = none →
      search_youtube (NetOutcome.ok (envL4 (JVal.obj d))) = Except.error PyErr.typeErr)
    ∧ (search_youtube (NetOutcome.ok (envL5 (JVal.arr []))) = Except.error PyErr.indexErr)
    ∧ (∀ d, List.lookup ("itemSectionRenderer") d = none →
      search_youtube (NetOutcome.ok (envL5 (JVal.arr [JVal.obj d]))) = Except.error PyErr.attrErr)
    ∧ (∀ d, List.lookup ("contents") d = none →
      search_youtube (NetOutcome.ok (envL6 (JVal.obj d))) = Except.error PyErr.typeErr) := by
  refine ⟨?_, ?_, ?_, ?_, ?_, ?_, ?_, ?_⟩
  · intro d h
    simp [search_youtube, searchResults, mget, index0, iterResults, List.lookup, h]
  · intro d h
    simp [search_youtube, searchResults, mget, index0, iterResults, envL1, List.lookup, h]
  · intro d h
    simp [search_youtube, searchResults, mget, index0, iterResults, envL1, envL2,
      List.lookup, h]
  · intro d h
    simp [search_youtube, searchResults, mget, index0, iterResults, envL1, envL2, envL3,
      List.lookup, h]
  · intro d h
    simp [search_youtube, searchResults, mget, index0, iterResults, envL1, envL2, envL3,
      envL4, List.lookup, h]
  · simp [search_youtube, searchResults, mget, index0, iterResults, envL1, envL2, envL3,
      envL4, envL5, List.lookup]
  · intro d h
    simp [search_youtube, searchResults, mget, index0, iterResults, envL1, envL2, envL3,
      envL4, envL5, List.lookup, h]
  · intro d h
    simp [search_youtube, searchResults, mget, index0, iterResults, envL1, envL2, envL3,
      envL4, envL5, envL6, List.lookup, h]

/-- Witness for C10's amended theorem: each malformed-envelope case evaluated
at a concrete body. -/
theorem search_youtube_envelope_hard_witness :
    search_youtube (NetOutcome.ok (JVal.obj [])) = Except.error PyErr.attrErr
    ∧ search_youtube (NetOutcome.ok (envL1 (JVal.obj []))) = Except.error PyErr.attrErr
    ∧ search_youtube (NetOutcome.ok (envL2 (JVal.obj []))) = Except.error PyErr.attrErr
    ∧ search_youtube (NetOutcome.ok (envL3 (JVal.obj []))) = Except.error PyErr.attrErr
    ∧ search_youtube (NetOutcome.ok (envL4 (JVal.obj []))) = Except.error PyErr.typeErr
    ∧ search_youtube (NetOutcome.ok (envL5 (JVal.arr []))) = Except.error PyErr.indexErr
    ∧ search_youtube (NetOutcome.ok (envL5 (JVal.arr [JVal.obj []]))) = Except.error PyErr.attrErr
    ∧ search_youtube (NetOutcome.ok (envL6 (JVal.obj []))) = Except.error PyErr.typeErr :=
  ⟨search_youtube_envelope_hard.1 [] rfl,
   search_youtube_envelope_hard.2.1 [] rfl,
   search_youtube_envelope_hard.2.2.1 [] rfl,
   search_youtube_envelope_hard.2.2.2.1 [] rfl,
   search_youtube_envelope_hard.2.2.2.2.1 [] rfl,
   search_youtube_envelope_hard.2.2.2.2.2.1,
   search_youtube_envelope_hard.2.2.2.2.2.2.1 [] rfl,
   search_youtube_envelope_hard.2.2.2.2.2.2.2 [] rfl⟩

/-- Modelled from the spec: the Authenticated Search operation is not present
under src/ (the spec alone describes it). Outcome of the remote search call:
the list of returned item identifiers, or one of the caught remote failures
(authorization, quota, timeout). -/
inductive AuthOutcome where
  | items (ids : List String)
  | authFail
  | quotaFail
  | timeoutFail

/-- Modelled from the spec: Authenticated Search issues a single search
request constrained to one result, extracts the first result's identifier and
returns its canonical playback URL; an empty item list yields an empty
string, and every failure of the remote call is caught and converted into the
same empty-string result rather than propagated. -/
def authenticated_search (outcome : AuthOutcome) : String :=
  match outcome with
  | AuthOutcome.items [] => ""
  | AuthOutcome.items (v :: _) => "https://youtu.be/" ++ v
  | AuthOutcome.authFail => ""
  | AuthOutcome.quotaFail => ""
  | AuthOutcome.timeoutFail => ""

/-- C5: the Authenticated Search returns an empty string (not an error) on a
zero-item response, converts each remote-call failure (authorization, quota,
timeout) into the same empty string, and therefore callers cannot distinguish
no-results from search-failed in this mode. -/
theorem authenticated_search_empty :
    authenticated_search (AuthOutcome.items []) = ""
    ∧ authenticated_search AuthOutcome.authFail = ""
    ∧ authenticated_search AuthOutcome.quotaFail = ""
    ∧ authenticated_search AuthOutcome.timeoutFail = ""
    ∧ authenticated_search AuthOutcome.authFail = authenticated_search (AuthOutcome.items [])
    ∧ authenticated_search AuthOutcome.quotaFail = authenticated_search (AuthOutcome.items [])
    ∧ authenticated_search AuthOutcome.timeoutFail = authenticated_search (AuthOutcome.items []) :=
  ⟨rfl, rfl, rfl, rfl, rfl, rfl, rfl⟩

/-- Outcome of YouTubeTranscriptApi.get_transcript: the timed segment texts,
or the TranscriptsDisabled exception. -/
inductive TranscriptOutcome where
  | segments (texts : List String)
  | disabled

/-- TextFormatter().format_transcript: joins the texts of the timed segments
with newlines into plain text. -/
def formatTranscript (texts : List String) : String :=
  String.intercalate "\n" texts

/-- Embeds get_video_transcript_en (src/youtube.py lines 171-187): returns the
plain-text formatted transcript, catching TranscriptsDisabled to return the
sentinel string instead of raising. -/
def get_video_transcript_en (video_id : String) (outcome : TranscriptOutcome) : String :=
  match outcome with
  | TranscriptOutcome.segments texts => formatTranscript texts
  | TranscriptOutcome.disabled => "Transcripts are disabled for video ID " ++ video_id

/-- C9: for every video identifier whose captions are disabled, the Transcript
Fetcher returns the literal sentinel string with the identifier substituted,
instead of raising. -/
theorem transcript_disabled_sentinel (video_id : String) :
    get_video_transcript_en video_id TranscriptOutcome.disabled
      = "Transcripts are disabled for video ID " ++ video_id := rfl

/-- The exception kinds caught by both download functions (src/youtube.py
lines 55-57 and 94-96): AttributeError, TypeError, ValueError (input
validation) and the engine's DownloadError and ExtractorError. -/
inductive EngineError where
  | attrError
  | typeError
  | valueError
  | downloadError
  | extractorError

/-- The staging path <dest>/.tmp/<name>.<ext> from the outtmpl option of both
download functions (src/youtube.py lines 39 and 83). -/
def tmpPath (download_path file_name ext : String) : String :=
  download_path ++ "/.tmp/" ++ file_name ++ "." ++ ext

/-- The final path <dest>/<name>.<ext> targeted by the post-download move
command of both download functions (src/youtube.py lines 48 and 87). -/
def finalPath (download_path file_name ext : String) : String :=
  download_path ++ "/" ++ file_name ++ "." ++ ext

/-- Observable effect of one download call: whether an exception escaped the
call, the printed log lines, and which paths hold a file afterwards. -/
structure DownloadEffect where
  raised : Bool
  log : List String
  files : String → Bool

/-- Modelled from the spec: the external download engine (yt_dlp) writes the
staged artifact at the output template path and, only when it reports
success, the configured post-download command `mv` relocates it to the final
path; on any failure the final path is never written and a stale partial
staged file may remain (leftoverStaged). ext is the extension chosen by the
engine (mp3 after the audio postprocessor). -/
def engineFiles (download_path file_name ext : String)
    (failure : Option EngineError) (leftoverStaged : Bool) : String → Bool :=
  fun p =>
    match failure with
    | none => p == finalPath download_path file_name ext
    | some _ => leftoverStaged && (p == tmpPath download_path file_name ext)

/-- Embeds download_audio_as_mp3 (src/youtube.py lines 15-57): the engine is
driven with the staging output template and the post-download move command;
the five caught exception kinds are logged with the file name and URL and the
call returns without raising. excText renders the caught exception. -/
def download_audio_as_mp3 (download_path file_name url : String)
    (failure : Option EngineError) (excText : String) (leftoverStaged : Bool)
    (ext : String) : DownloadEffect :=
  { raised := false
  , log :=
      match failure with
      | none => ["Downloading audio stream for " ++ file_name ++ " from URL: " ++ url]
      | some _ =>
        ["Downloading audio stream for " ++ file_name ++ " from URL: " ++ url,
         "Error downloading " ++ file_name ++ ": " ++ excText ++ " for URL: " ++ url]
  , files := engineFiles download_path file_name ext failure leftoverStaged }

/-- Embeds download_video_as_mp4 (src/youtube.py lines 59-96): identical
orchestration with the video format selection. -/
def download_video_as_mp4 (download_path file_name url : String)
    (failure : Option EngineError) (excText : String) (leftoverStaged : Bool)
    (ext : String) : DownloadEffect :=
  { raised := false
  , log :=
      match failure with
      | none => ["Downloading video stream for " ++ file_name ++ " from URL: " ++ url]
      | some _ =>
        ["Downloading video stream for " ++ file_name ++ " from URL: " ++ url,
         "Error downloading " ++ file_name ++ ": " ++ excText ++ " for URL: " ++ url]
  , files := engineFiles download_path file_name ext failure leftoverStaged }

theorem tmpPath_ne_finalPath (download_path file_name ext : String) :
    tmpPath download_path file_name ext ≠ finalPath download_path file_name ext := by
  intro h
  have hlen := congrArg String.length h
  have l1 : ("/.tmp/").length = 6 := rfl
  have l2 : ("/").length = 1 := rfl
  have l3 : (".").length = 1 := rfl
  simp only [tmpPath, finalPath, String.length_append, l1, l2, l3] at hlen
  omega

/-- C6: for every invocation of either download function, every caught
engine-level or input-validation error leaves the call returning without
raising, and the error is logged in a line containing both the file name and
the source URL; no outcome propagates an exception to the caller. -/
theorem download_errors_soft (download_path file_name url excText ext : String)
    (failure : Option EngineError) (leftoverStaged : Bool) :
    ((download_audio_as_mp3 download_path file_name url failure excText
        leftoverStaged ext).raised = false)
    ∧ ((download_video_as_mp4 download_path file_name url failure excText
        leftoverStaged ext).raised = false)
    ∧ (∀ e : EngineError, ∃ msg ∈ (download_audio_as_mp3 download_path file_name url
        (some e) excText leftoverStaged ext).log,
        ∃ s1 s2 s3, msg = s1 ++ file_name ++ s2 ++ url ++ s3)
    ∧ (∀ e : EngineError, ∃ msg ∈ (download_video_as_mp4 download_path file_name url
        (some e) excText leftoverStaged ext).log,
        ∃ s1 s2 s3, msg = s1 ++ file_name ++ s2 ++ url ++ s3) := by
  refine ⟨rfl, rfl, fun e => ?_, fun e => ?_⟩
  · refine ⟨"Error downloading " ++ file_name ++ ": " ++ excText ++ " for URL: " ++ url,
      by simp [download_audio_as_mp3], "Error downloading ",
      ": " ++ excText ++ " for URL: ", "", ?_⟩
    simp [String.append_assoc]
  · refine ⟨"Error downloading " ++ file_name ++ ": " ++ excText ++ " for URL: " ++ url,
      by simp [download_video_as_mp4], "Error downloading ",
      ": " ++ excText ++ " for URL: ", "", ?_⟩
    simp [String.append_assoc]

/-- C7: both download modes stage their output under <dest>/.tmp/<name>.<ext>;
on engine success the artifact exists at the final path <dest>/<name>.<ext>
and no longer at the staging path (it was moved, not copied); on any engine
failure nothing exists at the final path, whether or not a stale staged file
remains. -/
theorem download_staging_promotion (download_path file_name url excText ext : String)
    (leftoverStaged : Bool) :
    ((download_audio_as_mp3 download_path file_name url none excText
        leftoverStaged ext).files (finalPath download_path file_name ext) = true)
    ∧ ((download_audio_as_mp3 download_path file_name url none excText
        leftoverStaged ext).files (tmpPath download_path file_name ext) = false)
    ∧ (∀ e : EngineError, (download_audio_as_mp3 download_path file_name url (some e)
        excText leftoverStaged ext).files (finalPath download_path file_name ext) = false)
    ∧ ((download_video_as_mp4 download_path file_name url none excText
        leftoverStaged ext).files (finalPath download_path file_name ext) = true)
    ∧ ((download_video_as_mp4 download_path file_name url none excText
        leftoverStaged ext).files (tmpPath download_path file_name ext) = false)
    ∧ (∀ e : EngineError, (download_video_as_mp4 download_path file_name url (some e)
        excText leftoverStaged ext).files (finalPath download_path file_name ext) = false) := by
  have hne := tmpPath_ne_finalPath download_path file_name ext
  refine ⟨?_, ?_, fun e => ?_, ?_, ?_, fun e => ?_⟩ <;>
    simp [download_audio_as_mp3, download_video_as_mp4, engineFiles, hne, Ne.symm hne]

/-- The characters Python float() strips around a numeric string
(str.whitespace). -/
def pyWs (c : Char) : Bool :=
  c == ' ' || c == '\t' || c == '\n' || c == '\r' || c == '\x0b' || c == '\x0c'

/-- Numeric value of a digit character. -/
def digVal (c : Char) : Nat := c.toNat - 48

/-- Value of a digit string, most significant digit first. -/
def digitsToNat (ds : List Char) : Nat := ds.foldl (fun a c => 10 * a + digVal c) 0

/-- The exponent part after e/E: an optional sign and at least one digit,
consuming the whole remainder. -/
def parseExp (cs : List Char) : Option Int :=
  match cs with
  | '+' :: rest =>
    if rest ≠ [] ∧ rest.all Char.isDigit then some ((digitsToNat rest : Int)) else none
  | '-' :: rest =>
    if rest ≠ [] ∧ rest.all Char.isDigit then some (-(digitsToNat rest : Int)) else none
  | rest =>
    if rest ≠ [] ∧ rest.all Char.isDigit then some ((digitsToNat rest : Int)) else none

/-- The mantissa: digits with an optional point and further digits, at least
one digit overall. Returns the combined digit value, the count of fractional
digits, and the remaining characters. -/
def parseMantissa (cs : List Char) : Option (Nat × Nat × List Char) :=
  let intPart := cs.takeWhile Char.isDigit
  let rest1 := cs.dropWhile Char.isDigit
  match rest1 with
  | '.' :: rest2 =>
    let frac := rest2.takeWhile Char.isDigit
    let rest3 := rest2.dropWhile Char.isDigit
    if intPart = [] ∧ frac = [] then none
    else some (digitsToNat (intPart ++ frac), frac.length, rest3)
  | _ => if intPart = [] then none else some (digitsToNat intPart, 0, rest1)

/-- The rational value mantissa * 10 ^ (exponent - fractional length). -/
def applyExp (m : Nat) (fracLen : Nat) (e : Int) : ℚ :=
  let tot : Int := e - (fracLen : Int)
  if 0 ≤ tot then (m : ℚ) * (10 : ℚ) ^ tot.toNat
  else (m : ℚ) / (10 : ℚ) ^ (-tot).toNat

/-- Python float() on a string, modelled over the standard decimal grammar:
surrounding whitespace, an optional sign, digits with an optional fractional
part, and an optional e/E exponent. The special forms inf/nan and digit-group
underscores are not modelled; none means ValueError. -/
def parsePyFloat (cs0 : List Char) : Option ℚ :=
  let cs1 := (((cs0.dropWhile pyWs).reverse.dropWhile pyWs).reverse)
  let sgn : ℚ :=
    match cs1 with
    | '-' :: _ => -1
    | _ => 1
  let cs2 : List Char :=
    match cs1 with
    | '+' :: r => r
    | '-' :: r => r
    | r => r
  match parseMantissa cs2 with
  | none => none
  | some (m, fl, rest) =>
    match rest with
    | [] => some (sgn * applyExp m fl 0)
    | 'e' :: er => (parseExp er).map (fun e => sgn * applyExp m fl e)
    | 'E' :: er => (parseExp er).map (fun e => sgn * applyExp m fl e)
    | _ => none

/-- Python float(x) applied to a fetched metadata value: None raises
TypeError, a number converts, a string parses by the float grammar
(ValueError when unparseable), containers raise TypeError. -/
def pyFloat (v : Except PyErr (Option JVal)) : Except PyErr ℚ :=
  match v with
  | Except.error e => Except.error e
  | Except.ok none => Except.error PyErr.typeErr
  | Except.ok (some (JVal.num n)) => Except.ok ((n : ℚ))
  | Except.ok (some (JVal.str s)) =>
    match parsePyFloat s.toList with
    | some q => Except.ok q
    | none => Except.error PyErr.valueErr
  | Except.ok (some _) => Except.error PyErr.typeErr

/-- Embeds get_video_duration (src/youtube.py lines 98-117):
float(probe(...).get("format").get("duration")), taking the probed ffprobe
JSON as input. -/
def get_video_duration (probeData : JVal) : Except PyErr ℚ :=
  pyFloat (mget (mget (Except.ok (some probeData)) ("format")) ("duration"))

/-- The duration field of the first stream entry of probed metadata, written
from the spec's words ("the first video stream's duration") for comparison
with what get_video_duration actually reads. -/
def firstStreamDuration (probeData : JVal) : Option JVal :=
  match probeData with
  | JVal.obj d =>
    match List.lookup ("streams") d with
    | some (JVal.arr (JVal.obj s0 :: _)) => List.lookup ("duration") s0
    | _ => none
  | _ => none

/-- Probe metadata in which the container (format) duration differs from the
first video stream's duration. -/
def cex8 : JVal :=
  JVal.obj [("format", JVal.obj [("duration", JVal.str "7.0")]),
            ("streams", JVal.arr [JVal.obj [("duration", JVal.str "5.0")]])]

/-- C8 counterexample: get_video_duration reads the format (container)
section's duration, not the first video stream's: on metadata where the two
differ it returns 7 while the first stream's duration field parses to 5. -/
theorem duration_probe_cex :
    get_video_duration cex8 = Except.ok 7
    ∧ firstStreamDuration cex8 = some (JVal.str "5.0")
    ∧ parsePyFloat ("5.0").toList = some 5
    ∧ (7 : ℚ) ≠ 5 := by
  refine ⟨?_, rfl, ?_, by norm_num⟩
  · have h : get_video_duration cex8 = Except.ok ((1 : ℚ) * applyExp 70 1 0) := rfl
    rw [h]
    norm_num [applyExp]
  · have h : parsePyFloat ("5.0").toList = some ((1 : ℚ) * applyExp 50 1 0) := rfl
    rw [h]
    norm_num [applyExp]

/-- C8 (amended): for probed metadata, get_video_duration returns the
duration field of the format (container) section converted to a number of
seconds; it fails hard when the metadata lacks the field (AttributeError when
the format section is absent, TypeError on float(None) when its duration
field is absent — the metadata-missing condition) and fails hard with
ValueError (the metadata-format condition) when the field is present but not
parseable as a number; no condition produces a soft result. -/
theorem duration_probe_format_spec :
    (∀ d1 d2 s q, List.lookup ("format") d1 = some (JVal.obj d2) →
      List.lookup ("duration") d2 = some (JVal.str s) →
      parsePyFloat s.toList = some q →
      get_video_duration (JVal.obj d1) = Except.ok q)
    ∧ (∀ d1 d2 n, List.lookup ("format") d1 = some (JVal.obj d2) →
      List.lookup ("duration") d2 = some (JVal.num n) →
      get_video_duration (JVal.obj d1) = Except.ok ((n : ℚ)))
    ∧ (∀ d1, List.lookup ("format") d1 = none →
      get_video_duration (JVal.obj d1) = Except.error PyErr.attrErr)
    ∧ (∀ d1 d2, List.lookup ("format") d1 = some (JVal.obj d2) →
      List.lookup ("duration") d2 = none →
      get_video_duration (JVal.obj d1) = Except.error PyErr.typeErr)
    ∧ (∀ d1 d2 s, List.lookup ("format") d1 = some (JVal.obj d2) →
      List.lookup ("duration") d2 = some (JVal.str s) →
      parsePyFloat s.toList = none →
      get_video_duration (JVal.obj d1) = Except.error PyErr.valueErr) := by
  refine ⟨?_, ?_, ?_, ?_, ?_⟩
  · intro d1 d2 s q h1 h2 h3
    simp [get_video_duration, mget, pyFloat, h1, h2]
    rw [show parsePyFloat s.data = parsePyFloat s.toList from rfl, h3]
  · intro d1 d2 n h1 h2
    simp [get_video_duration, mget, pyFloat, h1, h2]
  · intro d1 h1
    simp [get_video_duration, mget, pyFloat, h1]
  · intro d1 d2 h1 h2
    simp [get_video_duration, mget, pyFloat, h1, h2]
  · intro d1 d2 s h1 h2 h3
    simp [get_video_duration, mget, pyFloat, h1, h2]
    rw [show parsePyFloat s.data = parsePyFloat s.toList from rfl, h3]

/-- Witness for C8's amended theorem: each condition evaluated on concrete
probe metadata. -/
theorem duration_probe_format_spec_witness :
    get_video_duration (JVal.obj [("format", JVal.obj [("duration", JVal.str "7.5")])])
      = Except.ok ((15 : ℚ) / 2)
    ∧ get_video_duration (JVal.obj [("format", JVal.obj [("duration", JVal.num 3)])])
      = Except.ok 3
    ∧ get_video_duration (JVal.obj []) = Except.error PyErr.attrErr
    ∧ get_video_duration (JVal.obj [("format", JVal.obj [])]) = Except.error PyErr.typeErr
    ∧ get_video_duration (JVal.obj [("format", JVal.obj [("duration", JVal.str "abc")])])
      = Except.error PyErr.valueErr := by
  refine ⟨?_, ?_, ?_, ?_, ?_⟩
  · refine duration_probe_format_spec.1 [("format", JVal.obj [("duration", JVal.str "7.5")])]
      [("duration", JVal.str "7.5")] ("7.5") ((15 : ℚ) / 2) rfl rfl ?_
    have h2 : parsePyFloat ("7.5").toList = some ((1 : ℚ) * applyExp 75 1 0) := rfl
    rw [h2]
    norm_num [applyExp]
  · exact duration_probe_format_spec.2.1 _ _ 3 rfl rfl
  · exact duration_probe_format_spec.2.2.1 [] rfl
  · exact duration_probe_format_spec.2.2.2.1 _ [] rfl rfl
  · exact duration_probe_format_spec.2.2.2.2 _ _ ("abc") rfl rfl rfl

/-- The character class [^"&?/ ] that captures the identifier in the
extraction pattern of get_video_id (src/youtube.py line 135). -/
def validIdChar (c : Char) : Bool :=
  !(c == '"') && !(c == '&') && !(c == '?') && !(c == '/') && !(c == ' ')

/-- The platform's identifier alphabet (letters, digits, dash, underscore):
the token grammar of an 11-character media identifier. -/
def idChar (c : Char) : Bool := c.isAlphanum || c == '-' || c == '_'

/-- Matches a literal at the front of the input, returning the remainder. -/
def stripP (pat cs : List Char) : Option (List Char) :=
  match pat, cs with
  | [], rest => some rest
  | _ :: _, [] => none
  | p :: ps, c :: rest => if p == c then stripP ps rest else none

/-- The literal youtube-nocookie.com/ of the pattern. -/
def patNoCookie : List Char :=
  ['y', 'o', 'u', 't', 'u', 'b', 'e', '-', 'n', 'o', 'c', 'o', 'o', 'k', 'i', 'e',
   '.', 'c', 'o', 'm', '/']

/-- The literal youtube.com/ of the pattern. -/
def patCom : List Char := ['y', 'o', 'u', 't', 'u', 'b', 'e', '.', 'c', 'o', 'm', '/']

/-- The literal youtu.be/ of the pattern. -/
def patBe : List Char := ['y', 'o', 'u', 't', 'u', '.', 'b', 'e', '/']

/-- The literal v/ of the tail alternation. -/
def patVSlash : List Char := ['v', '/']

/-- The literal embed/ of the tail alternation. -/
def patEmbedSlash : List Char := ['e', 'm', 'b', 'e', 'd', '/']

/-- The literal e/ of the tail alternation. -/
def patESlash : List Char := ['e', '/']

/-- The literal live/ of the tail alternation. -/
def patLive : List Char := ['l', 'i', 'v', 'e', '/']

/-- The literal v= ending the query alternative. -/
def patVEq : List Char := ['v', '=']

/-- Remainders after matching `[^/]*/` from the front: the class cannot cross
a slash, so the only possible match consumes up to the first slash. -/
def nsStarSlash (cs : List Char) : List (List Char) :=
  match cs with
  | [] => []
  | c :: rest => if c == '/' then [rest] else nsStarSlash rest

/-- Remainders after matching `.*/` greedily, longest first; `.` does not
match a newline. -/
def dotStarSlash (cs : List Char) : List (List Char) :=
  match cs with
  | [] => []
  | c :: rest =>
    (if c == '\n' then [] else dotStarSlash rest) ++ (if c == '/' then [rest] else [])

/-- Remainders after matching `.+/` greedily. -/
def dotPlusSlash (cs : List Char) : List (List Char) :=
  match cs with
  | [] => []
  | c :: rest => if c == '\n' then [] else dotStarSlash rest

/-- Remainders after the alternative `[^/]+/.+/`. -/
def t1M (cs : List Char) : List (List Char) :=
  match cs with
  | [] => []
  | c :: rest => if c == '/' then [] else (nsStarSlash rest).flatMap dotPlusSlash

/-- Remainders after the alternative `(?:v|e(?:mbed)?)/`, in the pattern's
backtracking order v/, embed/, e/. -/
def t2M (cs : List Char) : List (List Char) :=
  (stripP patVSlash cs).toList ++ (stripP patEmbedSlash cs).toList
    ++ (stripP patESlash cs).toList

/-- Remainders after the alternative `.*[?&]v=`, greedily (longest `.*`
first). -/
def t3M (cs : List Char) : List (List Char) :=
  match cs with
  | [] => []
  | c :: rest =>
    (if c == '\n' then [] else t3M rest)
      ++ (if c == '?' || c == '&' then (stripP patVEq rest).toList else [])

/-- Remainders after the alternative `live/`. -/
def t4M (cs : List Char) : List (List Char) := (stripP patLive cs).toList

/-- Remainders after the tail alternation following the youtube host, in the
pattern's order. -/
def comTail (cs : List Char) : List (List Char) :=
  t1M cs ++ t2M cs ++ t3M cs ++ t4M cs

/-- Remainders after the non-capturing head of the pattern:
youtube(-nocookie)?\.com/ followed by the tail alternation (greedy ? tries
-nocookie first), or youtu\.be/. -/
def headRemainders (cs : List Char) : List (List Char) :=
  (match stripP patNoCookie cs with
   | some r => comTail r
   | none => []) ++
  (match stripP patCom cs with
   | some r => comTail r
   | none => []) ++
  (stripP patBe cs).toList

/-- The capture group ([^"&?/ ]{11}): exactly eleven characters of the class;
the pattern ends there, so the remaining characters are ignored. -/
def capture11 (cs : List Char) : Option (List Char) :=
  let g := cs.take 11
  if g.length = 11 ∧ g.all validIdChar then some g else none

/-- One match attempt of the whole pattern at one position: the first head
remainder in backtracking order at which the capture succeeds. -/
def matchAt (cs : List Char) : Option (List Char) :=
  (headRemainders cs).findSome? capture11

/-- re.search over the pattern: the leftmost position with a match wins;
within one position the backtracking order of headRemainders decides the
capture. -/
def searchFrom (cs : List Char) : Option (List Char) :=
  match cs with
  | [] => matchAt []
  | c :: rest =>
    match matchAt (c :: rest) with
    | some g => some g
    | none => searchFrom rest

/-- Embeds get_video_id (src/youtube.py lines 119-136):
re.search(pattern=..., string=url).group(1). When re.search returns None the
.group call raises AttributeError (the spec's MalformedReferenceError),
modelled as none. -/
def get_video_id (url : String) : Option String :=
  (searchFrom url.toList).map List.asString

/-- The language of `[^/]+/.+/`, read from the pattern. -/
def T1Lang (t : List Char) : Prop :=
  ∃ a b, a ≠ [] ∧ ('/' ∉ a) ∧ b ≠ [] ∧ ('\n' ∉ b) ∧ t = a ++ ['/'] ++ b ++ ['/']

/-- The language of `(?:v|e(?:mbed)?)/`. -/
def T2Lang (t : List Char) : Prop := t = patVSlash ∨ t = patEmbedSlash ∨ t = patESlash

/-- The language of `.*[?&]v=`. -/
def T3Lang (t : List Char) : Prop :=
  ∃ c d, ('\n' ∉ c) ∧ (d = '?' ∨ d = '&') ∧ t = c ++ [d] ++ patVEq

/-- The language of `live/`. -/
def T4Lang (t : List Char) : Prop := t = patLive

/-- The language of the full non-capturing head of the pattern. -/
def HeadLang (u : List Char) : Prop :=
  (∃ h t, (h = patCom ∨ h = patNoCookie)
    ∧ (T1Lang t ∨ T2Lang t ∨ T3Lang t ∨ T4Lang t) ∧ u = h ++ t)
  ∨ u = patBe

/-- A string contains a recognizable URL shape: some split matches the head
alternation followed by eleven capture-class characters. -/
def hasMatch (cs : List Char) : Prop :=
  ∃ pre u g post, HeadLang u ∧ g.length = 11 ∧ (∀ c ∈ g, validIdChar c)
    ∧ cs = pre ++ u ++ g ++ post

/-- The https://www. prefix of the canonical URL shapes. -/
def wwwPrefix : List Char := ['h', 't', 't', 'p', 's', ':', '/', '/', 'w', 'w', 'w', '.']

/-- The https:// prefix of the shortened URL shape. -/
def httpsPrefix : List Char := ['h', 't', 't', 'p', 's', ':', '/', '/']

/-- The watch?v= tail of the canonical URL shape. -/
def watchTail : List Char := ['w', 'a', 't', 'c', 'h', '?', 'v', '=']

/-- The canonical shape https://www.youtube.com/watch?v=<id>. -/
def canonicalUrl (id : List Char) : List Char := wwwPrefix ++ patCom ++ watchTail ++ id

/-- The shortened shape https://youtu.be/<id>. -/
def shortUrl (id : List Char) : List Char := httpsPrefix ++ patBe ++ id

/-- The embed shape https://www.youtube.com/embed/<id>. -/
def embedUrl (id : List Char) : List Char := wwwPrefix ++ patCom ++ patEmbedSlash ++ id

/-- The live shape https://www.youtube.com/live/<id>. -/
def liveUrl (id : List Char) : List Char := wwwPrefix ++ patCom ++ patLive ++ id

theorem stripP_self (p r : List Char) : stripP p (p ++ r) = some r := by
  induction p with
  | nil => rfl
  | cons c cs ih => simp [stripP, ih]

theorem idChar_valid (c : Char) (h : idChar c = true) : validIdChar c = true := by
  simp only [validIdChar, Bool.and_eq_true, Bool.not_eq_true', beq_eq_false_iff_ne]
  refine ⟨⟨⟨⟨?_, ?_⟩, ?_⟩, ?_⟩, ?_⟩ <;>
    (intro hc; subst hc; exact absurd h (by decide))

theorem idChar_ne_slash (c : Char) (h : idChar c = true) : (c == '/') = false := by
  rw [beq_eq_false_iff_ne]
  intro hc; subst hc; exact absurd h (by decide)

theorem idChar_ne_query (c : Char) (h : idChar c = true) :
    (c == '?') = false ∧ (c == '&') = false ∧ (c == '\n') = false := by
  refine ⟨?_, ?_, ?_⟩ <;> rw [beq_eq_false_iff_ne] <;>
    (intro hc; subst hc; exact absurd h (by decide))

theorem nsStarSlash_no_slash (cs : List Char) (h : ∀ c ∈ cs, (c == '/') = false) :
    nsStarSlash cs = [] := by
  induction cs with
  | nil => rfl
  | cons c rest ih =>
    have hc := h c (List.mem_cons_self c rest)
    simp [nsStarSlash, hc, ih (fun x hx => h x (List.mem_cons_of_mem c hx))]

theorem dotStarSlash_no_slash (cs : List Char) (h : ∀ c ∈ cs, (c == '/') = false) :
    dotStarSlash cs = [] := by
  induction cs with
  | nil => rfl
  | cons c rest ih =>
    have hc := h c (List.mem_cons_self c rest)
    have ihr := ih (fun x hx => h x (List.mem_cons_of_mem c hx))
    simp [dotStarSlash, hc, ihr]

theorem dotPlusSlash_no_slash (cs : List Char) (h : ∀ c ∈ cs, (c == '/') = false) :
    dotPlusSlash cs = [] := by
  cases cs with
  | nil => rfl
  | cons c rest =>
    have ihr := dotStarSlash_no_slash rest (fun x hx => h x (List.mem_cons_of_mem c hx))
    simp [dotPlusSlash, ihr]

theorem t3M_no_query (cs : List Char)
    (h : ∀ c ∈ cs, (c == '?') = false ∧ (c == '&') = false) : t3M cs = [] := by
  induction cs with
  | nil => rfl
  | cons c rest ih =>
    have hc := h c (List.mem_cons_self c rest)
    have ihr := ih (fun x hx => h x (List.mem_cons_of_mem c hx))
    simp [t3M, hc.1, hc.2, ihr]

theorem capture11_self (id : List Char) (h1 : id.length = 11)
    (h2 : ∀ c ∈ id, validIdChar c = true) : capture11 id = some id := by
  have ht : id.take 11 = id := by
    rw [← h1, List.take_length]
  simp [capture11, ht, h1, List.all_eq_true]
  exact h2

theorem stripP_noCookie_com (r : List Char) : stripP patNoCookie (patCom ++ r) = none := by
  simp [stripP, patNoCookie, patCom]

theorem stripP_be_com (r : List Char) : stripP patBe (patCom ++ r) = none := by
  simp [stripP, patBe, patCom]

theorem stripP_noCookie_be (r : List Char) : stripP patNoCookie (patBe ++ r) = none := by
  simp [stripP, patNoCookie, patBe]

theorem stripP_com_be (r : List Char) : stripP patCom (patBe ++ r) = none := by
  simp [stripP, patCom, patBe]

theorem matchAt_ne_y (c : Char) (cs : List Char) (h : (c == 'y') = false) :
    matchAt (c :: cs) = none := by
  have hy : c ≠ 'y' := by
    rw [beq_eq_false_iff_ne] at h; exact h
  have h1 : stripP patNoCookie (c :: cs) = none := by
    simp [stripP, patNoCookie]
    intro h2; subst h2; simp at hy
  have h2 : stripP patCom (c :: cs) = none := by
    simp [stripP, patCom]
    intro h2; subst h2; simp at hy
  have h3 : stripP patBe (c :: cs) = none := by
    simp [stripP, patBe]
    intro h2; subst h2; simp at hy
  simp [matchAt, headRemainders, h1, h2, h3]

theorem searchFrom_of_matchAt (cs g : List Char) (h : matchAt cs = some g) :
    searchFrom cs = some g := by
  cases cs with
  | nil => simpa [searchFrom] using h
  | cons c rest => simp [searchFrom, h]

theorem searchFrom_skip (pre cs : List Char) (h : ∀ c ∈ pre, (c == 'y') = false) :
    searchFrom (pre ++ cs) = searchFrom cs := by
  induction pre with
  | nil => rfl
  | cons c p ih =>
    have hc := h c (List.mem_cons_self c p)
    have ihr := ih (fun x hx => h x (List.mem_cons_of_mem c hx))
    rw [List.cons_append]
    rw [show searchFrom (c :: (p ++ cs)) = searchFrom (p ++ cs) from by
      simp [searchFrom, matchAt_ne_y c (p ++ cs) hc]]
    exact ihr

theorem t3M_cons_other (c : Char) (cs : List Char) (h1 : (c == '\n') = false)
    (h2 : (c == '?') = false) (h3 : (c == '&') = false) :
    t3M (c :: cs) = t3M cs := by
  simp [t3M, h1, h2, h3]

theorem t3M_cons_q (cs : List Char) :
    t3M ('?' :: cs) = t3M cs ++ (stripP patVEq cs).toList := by
  simp [t3M]

theorem comTail_watch (id : List Char) (h : ∀ c ∈ id, idChar c = true) :
    comTail (watchTail ++ id) = [id] := by
  have hq : ∀ c ∈ id, (c == '?') = false ∧ (c == '&') = false :=
    fun c hc => ⟨(idChar_ne_query c (h c hc)).1, (idChar_ne_query c (h c hc)).2.1⟩
  have hnos : ∀ c ∈ (['a', 't', 'c', 'h', '?', 'v', '='] : List Char) ++ id,
      (c == '/') = false := by
    intro c hc
    rcases List.mem_append.1 hc with hc | hc
    · simp at hc
      rcases hc with rfl | rfl | rfl | rfl | rfl | rfl | rfl <;> decide
    · exact idChar_ne_slash c (h c hc)
  have hns0 : nsStarSlash ('a' :: 't' :: 'c' :: 'h' :: '?' :: 'v' :: '=' :: id) = [] :=
    nsStarSlash_no_slash _ hnos
  have ht1 : t1M (watchTail ++ id) = [] := by
    show t1M ('w' :: ('a' :: 't' :: 'c' :: 'h' :: '?' :: 'v' :: '=' :: id)) = []
    simp [t1M, hns0]
  have ht2 : t2M (watchTail ++ id) = [] := by
    simp [t2M, watchTail, stripP, patVSlash, patEmbedSlash, patESlash]
  have ht3 : t3M (watchTail ++ id) = [id] := by
    show t3M ('w' :: 'a' :: 't' :: 'c' :: 'h' :: '?' :: 'v' :: '=' :: id) = [id]
    rw [t3M_cons_other 'w' _ (by decide) (by decide) (by decide),
      t3M_cons_other 'a' _ (by decide) (by decide) (by decide),
      t3M_cons_other 't' _ (by decide) (by decide) (by decide),
      t3M_cons_other 'c' _ (by decide) (by decide) (by decide),
      t3M_cons_other 'h' _ (by decide) (by decide) (by decide),
      t3M_cons_q]
    rw [show stripP patVEq ('v' :: '=' :: id) = some id from stripP_self patVEq id]
    rw [t3M_cons_other 'v' _ (by decide) (by decide) (by decide),
      t3M_cons_other '=' _ (by decide) (by decide) (by decide)]
    rw [t3M_no_query id hq]
    rfl
  have ht4 : t4M (watchTail ++ id) = [] := by
    simp [t4M, watchTail, stripP, patLive]
  simp [comTail, ht1, ht2, ht3, ht4]

theorem comTail_embed (id : List Char) (h : ∀ c ∈ id, idChar c = true) :
    comTail (patEmbedSlash ++ id) = [id] := by
  have hslash : ∀ c ∈ id, (c == '/') = false := fun c hc => idChar_ne_slash c (h c hc)
  have hq : ∀ c ∈ patEmbedSlash ++ id, (c == '?') = false ∧ (c == '&') = false := by
    intro c hc
    rcases List.mem_append.1 hc with hc | hc
    · simp [patEmbedSlash] at hc
      rcases hc with rfl | rfl | rfl | rfl | rfl | rfl <;> exact ⟨by decide, by decide⟩
    · exact ⟨(idChar_ne_query c (h c hc)).1, (idChar_ne_query c (h c hc)).2.1⟩
  have hns : nsStarSlash ('m' :: 'b' :: 'e' :: 'd' :: '/' :: id) = [id] := by
    simp [nsStarSlash]
  have ht1 : t1M (patEmbedSlash ++ id) = [] := by
    show t1M ('e' :: ('m' :: 'b' :: 'e' :: 'd' :: '/' :: id)) = []
    simp [t1M, hns, dotPlusSlash_no_slash id hslash]
  have ht2 : t2M (patEmbedSlash ++ id) = [id] := by
    have hv : stripP patVSlash (patEmbedSlash ++ id) = none := by
      simp [stripP, patVSlash, patEmbedSlash]
    have he2 : stripP patESlash (patEmbedSlash ++ id) = none := by
      simp [stripP, patESlash, patEmbedSlash]
    simp [t2M, hv, stripP_self, he2]
  have ht3 : t3M (patEmbedSlash ++ id) = [] := t3M_no_query _ hq
  have ht4 : t4M (patEmbedSlash ++ id) = [] := by
    simp [t4M, stripP, patLive, patEmbedSlash]
  simp [comTail, ht1, ht2, ht3, ht4]

theorem comTail_live (id : List Char) (h : ∀ c ∈ id, idChar c = true) :
    comTail (patLive ++ id) = [id] := by
  have hslash : ∀ c ∈ id, (c == '/') = false := fun c hc => idChar_ne_slash c (h c hc)
  have hq : ∀ c ∈ patLive ++ id, (c == '?') = false ∧ (c == '&') = false := by
    intro c hc
    rcases List.mem_append.1 hc with hc | hc
    · simp [patLive] at hc
      rcases hc with rfl | rfl | rfl | rfl | rfl <;> exact ⟨by decide, by decide⟩
    · exact ⟨(idChar_ne_query c (h c hc)).1, (idChar_ne_query c (h c hc)).2.1⟩
  have hns : nsStarSlash ('i' :: 'v' :: 'e' :: '/' :: id) = [id] := by
    simp [nsStarSlash]
  have ht1 : t1M (patLive ++ id) = [] := by
    show t1M ('l' :: ('i' :: 'v' :: 'e' :: '/' :: id)) = []
    simp [t1M, hns, dotPlusSlash_no_slash id hslash]
  have ht2 : t2M (patLive ++ id) = [] := by
    simp [t2M, stripP, patVSlash, patEmbedSlash, patESlash, patLive]
  have ht3 : t3M (patLive ++ id) = [] := t3M_no_query _ hq
  have ht4 : t4M (patLive ++ id) = [id] := by
    simp [t4M, stripP_self]
  simp [comTail, ht1, ht2, ht3, ht4]

theorem matchAt_com_tail (tail id : List Char) (hct : comTail (tail ++ id) = [id])
    (hcap : capture11 id = some id) :
    matchAt (patCom ++ (tail ++ id)) = some id := by
  simp [matchAt, headRemainders, stripP_noCookie_com, stripP_be_com, stripP_self,
    hct, List.findSome?, hcap]

theorem matchAt_be (id : List Char) (hcap : capture11 id = some id) :
    matchAt (patBe ++ id) = some id := by
  simp [matchAt, headRemainders, stripP_noCookie_be, stripP_com_be, stripP_self,
    List.findSome?, hcap]

theorem toList_asString (l : List Char) : (List.asString l).toList = l := rfl

theorem stripP_sound : ∀ (p cs r : List Char), stripP p cs = some r → cs = p ++ r := by
  intro p
  induction p with
  | nil =>
    intro cs r h
    simp [stripP] at h
    simp [h]
  | cons a ps ih =>
    intro cs r h
    cases cs with
    | nil => simp [stripP] at h
    | cons c rest =>
      simp only [stripP] at h
      by_cases hac : (a == c) = true
      · rw [if_pos hac] at h
        have hae : a = c := by simpa using hac
        subst hae
        simp [ih rest r h]
      · rw [if_neg hac] at h
        cases h

theorem mem_stripP_toList (p cs r : List Char) (h : r ∈ (stripP p cs).toList) :
    cs = p ++ r := by
  cases ho : stripP p cs with
  | none => rw [ho] at h; simp at h
  | some r' =>
    rw [ho] at h
    simp at h
    subst h
    exact stripP_sound p cs r ho

theorem mem_nsStarSlash : ∀ (cs r : List Char), r ∈ nsStarSlash cs →
    ∃ a, ('/' ∉ a) ∧ cs = a ++ ['/'] ++ r := by
  intro cs
  induction cs with
  | nil => intro r h; simp [nsStarSlash] at h
  | cons c rest ih =>
    intro r h
    simp only [nsStarSlash] at h
    by_cases hc : (c == '/') = true
    · rw [if_pos hc] at h
      simp at h
      subst h
      exact ⟨[], by simp, by simp [show c = '/' from by simpa using hc]⟩
    · rw [if_neg hc] at h
      obtain ⟨a, ha1, ha2⟩ := ih r h
      have hne : c ≠ '/' := by
        rw [Bool.not_eq_true, beq_eq_false_iff_ne] at hc
        exact hc
      refine ⟨c :: a, ?_, by simp [ha2]⟩
      simp only [List.mem_cons, not_or]
      exact ⟨fun he => hne he.symm, ha1⟩

theorem mem_dotStarSlash : ∀ (cs r : List Char), r ∈ dotStarSlash cs →
    ∃ b, ('\n' ∉ b) ∧ cs = b ++ ['/'] ++ r := by
  intro cs
  induction cs with
  | nil => intro r h; simp [dotStarSlash] at h
  | cons c rest ih =>
    intro r h
    simp only [dotStarSlash] at h
    rcases List.mem_append.1 h with h | h
    · by_cases hc : (c == '\n') = true
      · rw [if_pos hc] at h; simp at h
      · rw [if_neg hc] at h
        obtain ⟨b, hb1, hb2⟩ := ih r h
        have hne : c ≠ '\n' := by
          rw [Bool.not_eq_true, beq_eq_false_iff_ne] at hc
          exact hc
        refine ⟨c :: b, ?_, by simp [hb2]⟩
        simp only [List.mem_cons, not_or]
        exact ⟨fun he => hne he.symm, hb1⟩
    · by_cases hc : (c == '/') = true
      · rw [if_pos hc] at h
        simp at h
        subst h
        exact ⟨[], by simp, by simp [show c = '/' from by simpa using hc]⟩
      · rw [if_neg hc] at h
        simp at h

theorem mem_dotPlusSlash (cs r : List Char) (h : r ∈ dotPlusSlash cs) :
    ∃ b, b ≠ [] ∧ ('\n' ∉ b) ∧ cs = b ++ ['/'] ++ r := by
  cases cs with
  | nil => simp [dotPlusSlash] at h
  | cons c rest =>
    simp only [dotPlusSlash] at h
    by_cases hc : (c == '\n') = true
    · rw [if_pos hc] at h; simp at h
    · rw [if_neg hc] at h
      obtain ⟨b, hb1, hb2⟩ := mem_dotStarSlash rest r h
      have hne : c ≠ '\n' := by
        rw [Bool.not_eq_true, beq_eq_false_iff_ne] at hc
        exact hc
      refine ⟨c :: b, by simp, ?_, by simp [hb2]⟩
      simp only [List.mem_cons, not_or]
      exact ⟨fun he => hne he.symm, hb1⟩

theorem mem_t1M (cs r : List Char) (h : r ∈ t1M cs) : ∃ t, T1Lang t ∧ cs = t ++ r := by
  cases cs with
  | nil => simp [t1M] at h
  | cons c rest =>
    simp only [t1M] at h
    by_cases hc : (c == '/') = true
    · rw [if_pos hc] at h; simp at h
    · rw [if_neg hc] at h
      rw [List.mem_flatMap] at h
      obtain ⟨r1, hr1, hr2⟩ := h
      obtain ⟨a, ha1, ha2⟩ := mem_nsStarSlash rest r1 hr1
      obtain ⟨b, hb0, hb1, hb2⟩ := mem_dotPlusSlash r1 r hr2
      have hne : c ≠ '/' := by
        rw [Bool.not_eq_true, beq_eq_false_iff_ne] at hc
        exact hc
      refine ⟨(c :: a) ++ ['/'] ++ b ++ ['/'], ⟨c :: a, b, by simp, ?_, hb0, hb1, rfl⟩, ?_⟩
      · simp only [List.mem_cons, not_or]
        exact ⟨fun he => hne he.symm, ha1⟩
      · simp [ha2, hb2, List.append_assoc]

theorem mem_t2M (cs r : List Char) (h : r ∈ t2M cs) : ∃ t, T2Lang t ∧ cs = t ++ r := by
  simp only [t2M] at h
  rcases List.mem_append.1 h with h1 | h1
  · rcases List.mem_append.1 h1 with h2 | h2
    · exact ⟨patVSlash, Or.inl rfl, mem_stripP_toList _ _ _ h2⟩
    · exact ⟨patEmbedSlash, Or.inr (Or.inl rfl), mem_stripP_toList _ _ _ h2⟩
  · exact ⟨patESlash, Or.inr (Or.inr rfl), mem_stripP_toList _ _ _ h1⟩

theorem mem_t3M : ∀ (cs r : List Char), r ∈ t3M cs → ∃ t, T3Lang t ∧ cs = t ++ r := by
  intro cs
  induction cs with
  | nil => intro r h; simp [t3M] at h
  | cons c rest ih =>
    intro r h
    simp only [t3M] at h
    rcases List.mem_append.1 h with h | h
    · by_cases hc : (c == '\n') = true
      · rw [if_pos hc] at h; simp at h
      · rw [if_neg hc] at h
        obtain ⟨t, ht, hre⟩ := ih r h
        obtain ⟨cc, d, hcc, hd, hteq⟩ := ht
        have hne : c ≠ '\n' := by
          rw [Bool.not_eq_true, beq_eq_false_iff_ne] at hc
          exact hc
        refine ⟨c :: t, ⟨c :: cc, d, ?_, hd, by simp [hteq]⟩, by simp [hre]⟩
        simp only [List.mem_cons, not_or]
        exact ⟨fun he => hne he.symm, hcc⟩
    · by_cases hc : (c == '?' || c == '&') = true
      · rw [if_pos hc] at h
        have hrest := mem_stripP_toList patVEq rest r h
        have hd : c = '?' ∨ c = '&' := by
          rcases Bool.or_eq_true_iff.1 hc with h1 | h1
          · exact Or.inl (by simpa using h1)
          · exact Or.inr (by simpa using h1)
        refine ⟨[c] ++ patVEq, ⟨[], c, by simp, hd, by simp⟩, by simp [hrest]⟩
      · rw [if_neg hc] at h
        simp at h

theorem mem_t4M (cs r : List Char) (h : r ∈ t4M cs) : ∃ t, T4Lang t ∧ cs = t ++ r :=
  ⟨patLive, rfl, mem_stripP_toList _ _ _ h⟩

theorem mem_comTail (cs r : List Char) (h : r ∈ comTail cs) :
    ∃ t, (T1Lang t ∨ T2Lang t ∨ T3Lang t ∨ T4Lang t) ∧ cs = t ++ r := by
  simp only [comTail] at h
  rcases List.mem_append.1 h with h1 | h1
  · rcases List.mem_append.1 h1 with h2 | h2
    · rcases List.mem_append.1 h2 with h3 | h3
      · obtain ⟨t, ht, hre⟩ := mem_t1M cs r h3
        exact ⟨t, Or.inl ht, hre⟩
      · obtain ⟨t, ht, hre⟩ := mem_t2M cs r h3
        exact ⟨t, Or.inr (Or.inl ht), hre⟩
    · obtain ⟨t, ht, hre⟩ := mem_t3M cs r h2
      exact ⟨t, Or.inr (Or.inr (Or.inl ht)), hre⟩
  · obtain ⟨t, ht, hre⟩ := mem_t4M cs r h1
    exact ⟨t, Or.inr (Or.inr (Or.inr ht)), hre⟩

theorem mem_headRemainders (cs r : List Char) (h : r ∈ headRemainders cs) :
    ∃ u, HeadLang u ∧ cs = u ++ r := by
  simp only [headRemainders] at h
  rcases List.mem_append.1 h with h1 | h1
  · rcases List.mem_append.1 h1 with h2 | h2
    · cases ho : stripP patNoCookie cs with
      | none => rw [ho] at h2; simp at h2
      | some r0 =>
        rw [ho] at h2
        obtain ⟨t, ht, hre⟩ := mem_comTail r0 r h2
        exact ⟨patNoCookie ++ t, Or.inl ⟨patNoCookie, t, Or.inr rfl, ht, rfl⟩,
          by simp [stripP_sound _ _ _ ho, hre, List.append_assoc]⟩
    · cases ho : stripP patCom cs with
      | none => rw [ho] at h2; simp at h2
      | some r0 =>
        rw [ho] at h2
        obtain ⟨t, ht, hre⟩ := mem_comTail r0 r h2
        exact ⟨patCom ++ t, Or.inl ⟨patCom, t, Or.inl rfl, ht, rfl⟩,
          by simp [stripP_sound _ _ _ ho, hre, List.append_assoc]⟩
  · exact ⟨patBe, Or.inr rfl, mem_stripP_toList _ _ _ h1⟩

theorem findSome?_mem {α β : Type} (f : α → Option β) : ∀ (l : List α) (b : β),
    l.findSome? f = some b → ∃ a ∈ l, f a = some b := by
  intro l
  induction l with
  | nil => intro b h; simp [List.findSome?] at h
  | cons a rest ih =>
    intro b h
    rw [List.findSome?] at h
    cases hfa : f a with
    | some b' =>
      rw [hfa] at h
      simp at h
      exact ⟨a, by simp, by rw [hfa, h]⟩
    | none =>
      rw [hfa] at h
      obtain ⟨x, hx1, hx2⟩ := ih b h
      exact ⟨x, by simp [hx1], hx2⟩

theorem capture11_sound (r g : List Char) (h : capture11 r = some g) :
    g.length = 11 ∧ (∀ c ∈ g, validIdChar c = true) ∧ r = g ++ r.drop 11 := by
  simp only [capture11] at h
  split at h
  case isTrue hcond =>
    simp at h
    subst h
    exact ⟨hcond.1, fun c hc => List.all_eq_true.1 hcond.2 c hc,
      (List.take_append_drop 11 r).symm⟩
  case isFalse => cases h

theorem matchAt_sound (cs g : List Char) (h : matchAt cs = some g) :
    ∃ u post, HeadLang u ∧ g.length = 11 ∧ (∀ c ∈ g, validIdChar c = true)
      ∧ cs = u ++ g ++ post := by
  obtain ⟨r, hr, hcap⟩ := findSome?_mem capture11 (headRemainders cs) g h
  obtain ⟨u, hu, hcs⟩ := mem_headRemainders cs r hr
  obtain ⟨hlen, hval, hr2⟩ := capture11_sound r g hcap
  refine ⟨u, r.drop 11, hu, hlen, hval, ?_⟩
  conv_lhs => rw [hcs, hr2]
  simp [List.append_assoc]

theorem searchFrom_sound : ∀ (cs g : List Char), searchFrom cs = some g → hasMatch cs := by
  intro cs
  induction cs with
  | nil =>
    intro g h
    simp only [searchFrom] at h
    obtain ⟨u, post, hu, hlen, hval, hcs⟩ := matchAt_sound [] g h
    exact ⟨[], u, g, post, hu, hlen, hval, by simp [hcs]⟩
  | cons c rest ih =>
    intro g h
    simp only [searchFrom] at h
    cases hm : matchAt (c :: rest) with
    | some g' =>
      rw [hm] at h
      simp at h
      subst h
      obtain ⟨u, post, hu, hlen, hval, hcs⟩ := matchAt_sound (c :: rest) g' hm
      exact ⟨[], u, g', post, hu, hlen, hval, by simpa using hcs⟩
    | none =>
      rw [hm] at h
      obtain ⟨pre, u, g2, post, h1, h2, h3, h4⟩ := ih g h
      exact ⟨c :: pre, u, g2, post, h1, h2, h3, by simp [h4]⟩

theorem headLang_len (u : List Char) (h : HeadLang u) : 9 ≤ u.length := by
  rcases h with ⟨hh, t, hh1, _, rfl⟩ | rfl
  · have hhl : 12 ≤ hh.length := by
      rcases hh1 with rfl | rfl <;> decide
    simp only [List.length_append]
    omega
  · decide

theorem hasMatch_len (cs : List Char) (h : hasMatch cs) : 20 ≤ cs.length := by
  obtain ⟨pre, u, g, post, hu, hlen, _, rfl⟩ := h
  have := headLang_len u hu
  simp only [List.length_append, hlen]
  omega

/-- C2: for every URL in one of the recognized canonical
(youtube.com/watch?v=), shortened (youtu.be/), embed (youtube.com/embed/),
or live (youtube.com/live/) shapes carrying an 11-character identifier token,
get_video_id returns exactly that token; and for every URL lacking a
recognizable shape — no split of it matches the extraction pattern —
re.search returns None, so .group(1) raises (the spec's
MalformedReferenceError): a hard failure with no fallback result, modelled as
an absent result. -/
theorem get_video_id_spec :
    (∀ id : List Char, id.length = 11 → (∀ c ∈ id, idChar c = true) →
      get_video_id (List.asString (canonicalUrl id)) = some (List.asString id)
      ∧ get_video_id (List.asString (shortUrl id)) = some (List.asString id)
      ∧ get_video_id (List.asString (embedUrl id)) = some (List.asString id)
      ∧ get_video_id (List.asString (liveUrl id)) = some (List.asString id))
    ∧ (∀ url : String, ¬ hasMatch url.toList → get_video_id url = none) := by
  constructor
  · intro id h1 h2
    have hval : ∀ c ∈ id, validIdChar c = true := fun c hc => idChar_valid c (h2 c hc)
    have hcap := capture11_self id h1 hval
    refine ⟨?_, ?_, ?_, ?_⟩
    · have hs : searchFrom (canonicalUrl id) = some id := by
        rw [show canonicalUrl id = wwwPrefix ++ (patCom ++ (watchTail ++ id)) from by
          simp [canonicalUrl, List.append_assoc]]
        rw [searchFrom_skip wwwPrefix _ (by decide)]
        exact searchFrom_of_matchAt _ _
          (matchAt_com_tail watchTail id (comTail_watch id h2) hcap)
      simp [get_video_id, toList_asString]
      exact hs
    · have hs : searchFrom (shortUrl id) = some id := by
        rw [show shortUrl id = httpsPrefix ++ (patBe ++ id) from by
          simp [shortUrl, List.append_assoc]]
        rw [searchFrom_skip httpsPrefix _ (by decide)]
        exact searchFrom_of_matchAt _ _ (matchAt_be id hcap)
      simp [get_video_id, toList_asString]
      exact hs
    · have hs : searchFrom (embedUrl id) = some id := by
        rw [show embedUrl id = wwwPrefix ++ (patCom ++ (patEmbedSlash ++ id)) from by
          simp [embedUrl, List.append_assoc]]
        rw [searchFrom_skip wwwPrefix _ (by decide)]
        exact searchFrom_of_matchAt _ _
          (matchAt_com_tail patEmbedSlash id (comTail_embed id h2) hcap)
      simp [get_video_id, toList_asString]
      exact hs
    · have hs : searchFrom (liveUrl id) = some id := by
        rw [show liveUrl id = wwwPrefix ++ (patCom ++ (patLive ++ id)) from by
          simp [liveUrl, List.append_assoc]]
        rw [searchFrom_skip wwwPrefix _ (by decide)]
        exact searchFrom_of_matchAt _ _
          (matchAt_com_tail patLive id (comTail_live id h2) hcap)
      simp [get_video_id, toList_asString]
      exact hs
  · intro url hnm
    cases hs : searchFrom url.toList with
    | none =>
      simp [get_video_id]
      exact hs
    | some g => exact absurd (searchFrom_sound _ g hs) hnm

/-- Witness for C2: a concrete 11-character identifier in all four URL
shapes, and a concrete string with no recognizable shape. -/
theorem get_video_id_spec_witness :
    get_video_id (List.asString (canonicalUrl
        ['d', 'Q', 'w', '4', 'w', '9', 'W', 'g', 'X', 'c', 'Q']))
      = some (List.asString ['d', 'Q', 'w', '4', 'w', '9', 'W', 'g', 'X', 'c', 'Q'])
    ∧ get_video_id (List.asString (shortUrl
        ['d', 'Q', 'w', '4', 'w', '9', 'W', 'g', 'X', 'c', 'Q']))
      = some (List.asString ['d', 'Q', 'w', '4', 'w', '9', 'W', 'g', 'X', 'c', 'Q'])
    ∧ get_video_id (List.asString (embedUrl
        ['d', 'Q', 'w', '4', 'w', '9', 'W', 'g', 'X', 'c', 'Q']))
      = some (List.asString ['d', 'Q', 'w', '4', 'w', '9', 'W', 'g', 'X', 'c', 'Q'])
    ∧ get_video_id (List.asString (liveUrl
        ['d', 'Q', 'w', '4', 'w', '9', 'W', 'g', 'X', 'c', 'Q']))
      = some (List.asString ['d', 'Q', 'w', '4', 'w', '9', 'W', 'g', 'X', 'c', 'Q'])
    ∧ get_video_id "x" = none := by
  have h := get_video_id_spec.1 ['d', 'Q', 'w', '4', 'w', '9', 'W', 'g', 'X', 'c', 'Q']
    (by decide) (by decide)
  refine ⟨h.1, h.2.1, h.2.2.1, h.2.2.2, ?_⟩
  refine get_video_id_spec.2 "x" ?_
  intro hm
  have hlen := hasMatch_len _ hm
  have hx : ("x").toList.length = 1 := rfl
  omega
